import Mathlib

/-!
Verification of the orderly cross-venue order-book aggregator.

This file shallowly embeds the data model and the operations of the
aggregator (src/orderbook.rs), the venue adapters' message-to-tick
conversions and their parse dispatch (src/kraken.rs, src/coinbase.rs,
src/binance.rs, src/bitstamp.rs), and the latest-value broadcast
stream of the subscriber service (src/grpc.rs), and proves or refutes
the specified properties.

Modelling conventions:
- rust_decimal's exact decimal numbers are modelled by the rationals
  Decimal := Rat: comparison, equality and subtraction of in-range
  decimals are exactly the rational ones (the spec stipulates that
  scale is preserved for display but ignored by equality).
- BTreeMap from prices to levels is modelled by a list of key-value
  pairs kept sorted by strictly increasing key (insertKV below keeps
  that invariant, matching BTreeMap insert and iteration order).
- Vec sort_unstable is modelled by insertion sort over the derived
  comparator translated from the source's Ord implementation.  The
  comparator decides the sorted order completely except between
  elements comparing Equal, where the Rust order is unspecified; the
  stable model realises one admissible behaviour.
- serde_json deserialization of a text frame is an external library
  call; it is abstracted as a function from strings to Option of the
  venue's decoded event type, with none standing for a decode error.
-/

/-- Exact decimal numbers (rust_decimal::Decimal), modelled as rationals. -/
abbrev Decimal := ℚ

/-- Three-way comparison of decimals, as Ord on rust_decimal values. -/
def qcmp (a b : Decimal) : Ordering :=
  if a < b then Ordering.lt else if b < a then Ordering.gt else Ordering.eq

/-- The venue identifier enum of src/orderbook.rs. -/
inductive Exchange
  | Bitstamp
  | Binance
  | Kraken
  | Coinbase
deriving DecidableEq, Repr

/-- The book-side enum of src/orderbook.rs. -/
inductive Side
  | Bid
  | Ask
deriving DecidableEq, Repr

/-- One price level from some venue (struct Level of src/orderbook.rs). -/
structure Level where
  side : Side
  price : Decimal
  amount : Decimal
  exchange : Exchange
deriving DecidableEq, Repr

/-- Level::new. -/
def Level.new (side : Side) (price amount : Decimal) (exchange : Exchange) : Level :=
  { side := side, price := price, amount := amount, exchange := exchange }

/-- The Ord implementation for Level in src/orderbook.rs: order by price,
and at equal prices by amount, reversed on the ask side. The venue field
is never consulted. -/
def Level.cmp (a b : Level) : Ordering :=
  match qcmp a.price b.price, a.side with
  | Ordering.eq, Side.Bid => qcmp a.amount b.amount
  | Ordering.eq, Side.Ask => (qcmp a.amount b.amount).swap
  | o, _ => o

/-- The non-strict order induced by Level.cmp: a sorts no later than b.
sort_unstable produces lists sorted under this relation. -/
def levLE (a b : Level) : Prop := Level.cmp a b ≠ Ordering.gt

instance : DecidableRel levLE := fun a b => by
  unfold levLE; infer_instance

/-- One normalized update from a venue (struct InTick of src/orderbook.rs). -/
structure InTick where
  exchange : Exchange
  bids : List Level
  asks : List Level
deriving DecidableEq, Repr

/-- The published consolidated view (struct OutTick of src/orderbook.rs). -/
structure OutTick where
  spread : Decimal
  bids : List Level
  asks : List Level
deriving DecidableEq, Repr

/-- OutTick::new: the default OutTick, spread 0 and empty sides. -/
def OutTick.new : OutTick := { spread := 0, bids := [], asks := [] }

/-- Book state of a snapshot-replace venue (struct OrderDepths). -/
structure OrderDepths where
  bids : List Level
  asks : List Level
deriving DecidableEq, Repr

/-- OrderDepths::new. -/
def OrderDepths.new : OrderDepths := { bids := [], asks := [] }

/-- BTreeMap from Decimal price to Level, modelled as an association
list sorted by strictly increasing key. -/
abbrev LevelsMap := List (Decimal × Level)

/-- BTreeMap::insert: place the pair at its key position, replacing an
existing entry with the same key. -/
def insertKV (k : Decimal) (v : Level) : LevelsMap → LevelsMap
  | [] => [(k, v)]
  | (k0, v0) :: rest =>
    if k < k0 then (k, v) :: (k0, v0) :: rest
    else if k = k0 then (k, v) :: rest
    else (k0, v0) :: insertKV k v rest

/-- collect of an iterator of (price, level) pairs into a BTreeMap, as in
Exchanges::update for the delta venues. -/
def collectMap (ls : List Level) : LevelsMap :=
  ls.foldl (fun m l => insertKV l.price l m) []

/-- BTreeMap::extend: insert every entry of the other map. -/
def LevelsMap.extend (self other : LevelsMap) : LevelsMap :=
  other.foldl (fun m kv => insertKV kv.1 kv.2 m) self

/-- The values of the map in ascending key order. -/
def LevelsMap.values (m : LevelsMap) : List Level := m.map Prod.snd

/-- ExtendAndKeep::extend_and_keep of src/orderbook.rs: merge the other
map in, drop entries whose level has amount 0, and if more than i
entries remain, split the map off at its i-th smallest key, keeping
only the entries with smaller keys. -/
def LevelsMap.extend_and_keep (self other : LevelsMap) (i : ℕ) : LevelsMap :=
  let m := (self.extend other).filter (fun kv => decide (kv.2.amount ≠ 0))
  if h : i < m.length then
    let key := (m.get ⟨i, h⟩).1
    m.filter (fun kv => decide (kv.1 < key))
  else m

/-- Book state of an incremental-delta venue (struct OrderDepthsMap). -/
structure OrderDepthsMap where
  bids : LevelsMap
  asks : LevelsMap
deriving DecidableEq, Repr

/-- OrderDepthsMap::new. -/
def OrderDepthsMap.new : OrderDepthsMap := { bids := [], asks := [] }

/-- Merge::merge of src/orderbook.rs: concatenate and sort_unstable. -/
def Merge.merge (self other : List Level) : List Level :=
  List.insertionSort levLE (self ++ other)

/-- Merge::merge_map: merge with the values of a BTreeMap book. -/
def Merge.merge_map (self : List Level) (other : LevelsMap) : List Level :=
  Merge.merge self other.values

/-- The aggregate of all venue books (struct Exchanges of src/orderbook.rs). -/
structure Exchanges where
  bitstamp : OrderDepths
  binance : OrderDepths
  kraken : OrderDepthsMap
  coinbase : OrderDepthsMap
deriving DecidableEq, Repr

/-- Exchanges::new. -/
def Exchanges.new : Exchanges :=
  { bitstamp := OrderDepths.new
    binance := OrderDepths.new
    kraken := OrderDepthsMap.new
    coinbase := OrderDepthsMap.new }

/-- Exchanges::update: store the tick's sides into the venue's book.
Snapshot venues replace their lists; delta venues collect the tick's
levels into price-keyed maps and extend_and_keep with index 10. -/
def Exchanges.update (s : Exchanges) (t : InTick) : Exchanges :=
  match t.exchange with
  | Exchange.Bitstamp =>
    { s with bitstamp := { bids := t.bids, asks := t.asks } }
  | Exchange.Binance =>
    { s with binance := { bids := t.bids, asks := t.asks } }
  | Exchange.Kraken =>
    let bids := collectMap t.bids
    let asks := collectMap t.asks
    { s with kraken :=
        { bids := s.kraken.bids.extend_and_keep bids 10
          asks := s.kraken.asks.extend_and_keep asks 10 } }
  | Exchange.Coinbase =>
    let bids := collectMap t.bids
    let asks := collectMap t.asks
    { s with coinbase :=
        { bids := s.coinbase.bids.extend_and_keep bids 10
          asks := s.coinbase.asks.extend_and_keep asks 10 } }

/-- Exchanges::to_tick: merge all venues' bids (reversed, so descending)
and asks (ascending), take the first 10 of each, and compute the spread
from the first elements. -/
def Exchanges.to_tick (s : Exchanges) : OutTick :=
  let bids : List Level :=
    ((Merge.merge_map (Merge.merge_map (Merge.merge s.bitstamp.bids s.binance.bids)
        s.kraken.bids) s.coinbase.bids).reverse.take 10)
  let asks : List Level :=
    ((Merge.merge_map (Merge.merge_map (Merge.merge s.bitstamp.asks s.binance.asks)
        s.kraken.asks) s.coinbase.asks).take 10)
  let spread : Decimal :=
    match bids.head?, asks.head? with
    | some b, some a => a.price - b.price
    | _, _ => 0
  { spread := spread, bids := bids, asks := asks }

/-! ## Venue adapters: normalized conversion -/

/-- The generic ToLevels::to_levels of src/orderbook.rs: keep only the
first depth entries of the wire-ordered list, then convert each to a
normalized Level on the given side. -/
def toLevels {α : Type} (toLevel : α → Side → Level) (xs : List α)
    (side : Side) (depth : ℕ) : List Level :=
  (if depth < xs.length then xs.take depth else xs).map (fun x => toLevel x side)

/-- A Kraken wire level (struct Level of src/kraken.rs): price, volume,
timestamp, and an optional republish marker. -/
structure KLevel where
  price : Decimal
  volume : Decimal
  timestamp : Decimal
  update_type : Option String
deriving DecidableEq, Repr

/-- ToLevel for kraken::Level. -/
def KLevel.to_level (l : KLevel) (side : Side) : Level :=
  Level.new side l.price l.volume Exchange.Kraken

/-- The two book payload shapes of src/kraken.rs (enum Book): a snapshot
with both sides, or an update with optional per-side delta lists and an
optional checksum. -/
inductive KBook
  | Snapshot (asks : List KLevel) (bids : List KLevel)
  | Update (asks : Option (List KLevel)) (bids : Option (List KLevel))
      (checksum : Option String)
deriving DecidableEq, Repr

/-- enum Payload of src/kraken.rs (book channel only). -/
inductive KPayload
  | Book (book : KBook)
deriving DecidableEq, Repr

/-- enum PublicMessage of src/kraken.rs: array-framed messages carrying
one or two payload objects between the channel id and the channel
name/pair suffix. -/
inductive KPublicMessage
  | SinglePayload (channel_id : ℕ) (payload : KPayload)
      (channel_name : String) (pair : String)
  | DoublePayload (channel_id : ℕ) (payload1 : KPayload) (payload2 : KPayload)
      (channel_name : String) (pair : String)
deriving DecidableEq, Repr

/-- enum GeneralMessage of src/kraken.rs. The nested subscription records
are flattened to the fields the conversion can observe; none of them
influence tick production. -/
inductive KGeneralMessage
  | Ping (reqid : Option ℕ)
  | Pong (reqid : Option ℕ)
  | Heartbeat
  | SystemStatus (connection_id : Option ℕ) (status : String) (version : String)
  | Subscribe (reqid : Option ℕ) (pair : List String)
  | Unsubscribe (reqid : Option ℕ) (pair : List String)
  | SubscriptionStatus (channel_name : Option String) (reqid : Option ℕ)
      (pair : Option String) (status : String) (error_message : Option String)
      (channel_id : Option ℕ)
  | Error (error_message : String) (reqid : Option ℕ)
deriving DecidableEq, Repr

/-- enum Event of src/kraken.rs. -/
inductive KEvent
  | GeneralMessage (m : KGeneralMessage)
  | PublicMessage (m : KPublicMessage)
deriving DecidableEq, Repr

/-- ToTick::maybe_to_tick for kraken::Event. A snapshot converts both
sides; a single update payload converts whichever sides are present; a
double payload message converts both payloads in declaration order,
each optional side list assigning (and the second payload thereby
overwriting) the tick's side. -/
def KEvent.maybe_to_tick : KEvent → Option InTick
  | KEvent.PublicMessage (KPublicMessage.SinglePayload _
      (KPayload.Book (KBook.Snapshot asks bids)) _ _) =>
    some { exchange := Exchange.Kraken
           bids := toLevels KLevel.to_level bids Side.Bid 10
           asks := toLevels KLevel.to_level asks Side.Ask 10 }
  | KEvent.PublicMessage (KPublicMessage.SinglePayload _
      (KPayload.Book (KBook.Update asks bids _)) _ _) =>
    some { exchange := Exchange.Kraken
           bids := match bids with
             | some bs => toLevels KLevel.to_level bs Side.Bid 10
             | none => []
           asks := match asks with
             | some xs => toLevels KLevel.to_level xs Side.Ask 10
             | none => [] }
  | KEvent.PublicMessage (KPublicMessage.DoublePayload _
      (KPayload.Book (KBook.Update a1 b1 _))
      (KPayload.Book (KBook.Update a2 b2 _)) _ _) =>
    some { exchange := Exchange.Kraken
           bids := match b2, b1 with
             | some bs, _ => toLevels KLevel.to_level bs Side.Bid 10
             | none, some bs => toLevels KLevel.to_level bs Side.Bid 10
             | none, none => []
           asks := match a2, a1 with
             | some xs, _ => toLevels KLevel.to_level xs Side.Ask 10
             | none, some xs => toLevels KLevel.to_level xs Side.Ask 10
             | none, none => [] }
  | _ => none

/-- A Coinbase wire level (struct Level of src/coinbase.rs). -/
structure CLevel where
  price : Decimal
  amount : Decimal
deriving DecidableEq, Repr

/-- ToLevel for coinbase::Level. -/
def CLevel.to_level (l : CLevel) (side : Side) : Level :=
  Level.new side l.price l.amount Exchange.Coinbase

/-- enum Side of src/coinbase.rs (the buy/sell tag of an l2update change). -/
inductive CSide
  | Buy
  | Sell
deriving DecidableEq, Repr

/-- struct Change of src/coinbase.rs. -/
structure CChange where
  side : CSide
  price : Decimal
  amount : Decimal
deriving DecidableEq, Repr

/-- ToLevel for coinbase::Change. -/
def CChange.to_level (c : CChange) (side : Side) : Level :=
  Level.new side c.price c.amount Exchange.Coinbase

/-- enum Channel of src/coinbase.rs. -/
inductive CChannel
  | Channel (name : String)
  | Config (name : String) (product_ids : List String)
deriving DecidableEq, Repr

/-- enum Event of src/coinbase.rs. Timestamps are abstracted to their
wire strings; the status payload's product and currency records are
abstracted to their identifiers, as the conversion never reads them. -/
inductive CEvent
  | Error (message : String)
  | Subscribe (product_ids : Option (List String)) (channels : List CChannel)
  | Unsubscribe (product_ids : Option (List String)) (channels : List CChannel)
  | Subscriptions (channels : List CChannel)
  | Heartbeat (sequence : ℕ) (last_trade_id : ℕ) (product_id : String) (time : String)
  | Status (products : List String) (currencies : List String)
  | Ticker (sequence : ℕ) (product_id : String) (price : Decimal)
      (best_bid : Decimal) (best_ask : Decimal) (side : CSide) (time : String)
      (trade_id : ℕ) (last_size : Decimal)
  | Snapshot (product_id : String) (bids : List CLevel) (asks : List CLevel)
  | L2Update (product_id : String) (time : String) (changes : List CChange)
deriving DecidableEq, Repr

/-- ToTick::maybe_to_tick for coinbase::Event: snapshots convert both
sides; l2updates split the changes by their buy/sell tag and convert
each side; every other event produces no tick. -/
def CEvent.maybe_to_tick : CEvent → Option InTick
  | CEvent.Snapshot _ bids asks =>
    some { exchange := Exchange.Coinbase
           bids := toLevels CLevel.to_level bids Side.Bid 10
           asks := toLevels CLevel.to_level asks Side.Ask 10 }
  | CEvent.L2Update _ _ changes =>
    some { exchange := Exchange.Coinbase
           bids := toLevels CChange.to_level
             (changes.filter (fun c => decide (c.side = CSide.Buy))) Side.Bid 10
           asks := toLevels CChange.to_level
             (changes.filter (fun c => decide (c.side = CSide.Sell))) Side.Ask 10 }
  | _ => none

/-- A Binance wire level (struct Level of src/binance.rs). -/
structure BnLevel where
  price : Decimal
  amount : Decimal
deriving DecidableEq, Repr

/-- ToLevel for binance::Level. The source predates the side field on
the normalized Level; the side distinguishing the containing list is
supplied here. -/
def BnLevel.to_level (l : BnLevel) (side : Side) : Level :=
  Level.new side l.price l.amount Exchange.Binance

/-- struct Event of src/binance.rs: a full depth-10 snapshot frame. -/
structure BnEvent where
  last_update_id : ℕ
  bids : List BnLevel
  asks : List BnLevel
deriving DecidableEq, Repr

/-- ToTick::maybe_to_tick for binance::Event: every decoded frame
produces a tick of the first ten levels of each side. -/
def BnEvent.maybe_to_tick (e : BnEvent) : Option InTick :=
  some { exchange := Exchange.Binance
         bids := toLevels BnLevel.to_level e.bids Side.Bid 10
         asks := toLevels BnLevel.to_level e.asks Side.Ask 10 }

/-- A Bitstamp wire level (structs Bid and Ask of src/bitstamp.rs share
this shape). -/
structure BsLevel where
  price : Decimal
  amount : Decimal
deriving DecidableEq, Repr

/-- ToLevel for a bitstamp wire level, with the side of its containing
list supplied as for Binance. -/
def BsLevel.to_level (l : BsLevel) (side : Side) : Level :=
  Level.new side l.price l.amount Exchange.Bitstamp

/-- struct InData of src/bitstamp.rs; the two timestamps are abstracted
to their integer epoch values. -/
structure BsInData where
  timestamp : ℤ
  microtimestamp : ℤ
  bids : List BsLevel
  asks : List BsLevel
deriving DecidableEq, Repr

/-- enum Event of src/bitstamp.rs. -/
inductive BsEvent
  | Data (data : BsInData) (channel : String)
  | Subscribe (channel : String)
  | Unsubscribe (channel : String)
  | SubscriptionSucceeded (channel : String)
  | UnsubscriptionSucceeded (channel : String)
  | Error (code : Option String) (message : String) (channel : String)
deriving DecidableEq, Repr

/-- ToTick::maybe_to_tick for bitstamp::Event: only data events carry
depth; each side keeps its first ten wire levels. -/
def BsEvent.maybe_to_tick : BsEvent → Option InTick
  | BsEvent.Data data _ =>
    some { exchange := Exchange.Bitstamp
           bids := toLevels BsLevel.to_level data.bids Side.Bid 10
           asks := toLevels BsLevel.to_level data.asks Side.Ask 10 }
  | _ => none

/-! ## Venue adapters: parse dispatch -/

/-- tungstenite's Message frames, with payloads abstracted to their
carried bytes or text. -/
inductive Message
  | Text (s : String)
  | Binary (payload : List ℕ)
  | Ping (payload : List ℕ)
  | Pong (payload : List ℕ)
  | Close (payload : Option String)
  | Frame (payload : List ℕ)
deriving DecidableEq, Repr

/-- The error taxonomy of src/error.rs, with the wrapped library errors
abstracted away. -/
inductive Err
  | BadConnection
  | BadData
  | IoError
  | ServerError
  | BadAddr
deriving DecidableEq, Repr

/-- kraken::parse of src/kraken.rs: text frames are deserialized (the
serde decoder is abstracted as dec, with none marking an undecodable
payload, surfaced as BadData) and converted; every other frame kind
produces no tick. -/
def Kraken.parse (dec : String → Option KEvent) : Message → Except Err (Option InTick)
  | Message.Binary _ => Except.ok none
  | Message.Text x =>
    match dec x with
    | some e => Except.ok e.maybe_to_tick
    | none => Except.error Err.BadData
  | Message.Ping _ => Except.ok none
  | Message.Pong _ => Except.ok none
  | Message.Close _ => Except.ok none
  | Message.Frame _ => Except.ok none

/-- coinbase::parse of src/coinbase.rs, same dispatch as Kraken's. -/
def Coinbase.parse (dec : String → Option CEvent) : Message → Except Err (Option InTick)
  | Message.Binary _ => Except.ok none
  | Message.Text x =>
    match dec x with
    | some e => Except.ok e.maybe_to_tick
    | none => Except.error Err.BadData
  | Message.Ping _ => Except.ok none
  | Message.Pong _ => Except.ok none
  | Message.Close _ => Except.ok none
  | Message.Frame _ => Except.ok none

/-- binance::parse of src/binance.rs, same dispatch. -/
def Binance.parse (dec : String → Option BnEvent) : Message → Except Err (Option InTick)
  | Message.Binary _ => Except.ok none
  | Message.Text x =>
    match dec x with
    | some e => Except.ok e.maybe_to_tick
    | none => Except.error Err.BadData
  | Message.Ping _ => Except.ok none
  | Message.Pong _ => Except.ok none
  | Message.Close _ => Except.ok none
  | Message.Frame _ => Except.ok none

/-! ## The latest-value broadcast stream (src/grpc.rs, src/orderly.rs)

The broadcast slot is a tokio watch channel created in
Connector::new as watch::channel(OutTick::new()), so version 0 of the
slot holds the default OutTick.  Every InTick drained by
Connector::run publishes one OutTick through the sender, advancing the
slot's version by one: after the first t publishes of the run the slot
holds the t-th published value (or the default when t = 0) at version
t.  book_summary in src/grpc.rs clones the receiver stored next to the
sender; a watch receiver clone inherits the seen-version marker of the
receiver it is cloned from, and the stored receiver's marker stays at
the initial version 0 forever because no code path ever marks a value
seen on it (OrderBookService::out_tick only borrows).  The stream then
yields the borrowed current value once, and afterwards yields the
then-current value each time changed() completes; changed() completes
exactly when the slot's version exceeds the receiver's marker, and
sets the marker to the version it observed. -/

/-- The value held by the broadcast slot after the first t publishes:
the t-th published OutTick, or the default before any publish. -/
def slotValue (pubs : List OutTick) (t : ℕ) : OutTick :=
  (pubs.take t).getLastD OutTick.new

/-- The changed-yield loop of book_summary, driven by a schedule of
slot versions observed at the successive completed awaits.  The
receiver's seen marker starts at the clone's inherited version and is
advanced to each observed version; an await whose observed version
does not exceed the marker yields nothing. -/
def pollLoop (pubs : List OutTick) : ℕ → List ℕ → List (ℕ × OutTick)
  | _, [] => []
  | seen, t :: ts =>
    if seen < t then (t, slotValue pubs t) :: pollLoop pubs t ts
    else pollLoop pubs seen ts

/-- The sequence of values (tagged by the slot version read) that a
book_summary subscription yields: connecting after k publishes, it
yields the slot value at connect once, then runs the changed loop with
the inherited seen marker 0. -/
def bookSummaryYields (pubs : List OutTick) (k : ℕ) (sched : List ℕ) :
    List (ℕ × OutTick) :=
  (k, slotValue pubs k) :: pollLoop pubs 0 sched

/-! ## Derived predicates and concrete instances used by the claims -/

/-- The aggregator loop of src/orderly.rs, restricted to its ingress
drain: fold a sequence of InTicks into the venue books, starting from
the empty state created before the loop. -/
def Exchanges.applyAll (ticks : List InTick) : Exchanges :=
  ticks.foldl Exchanges.update Exchanges.new

/-- The bid ordering the spec claims for OutTick, parametrised by the
venue tiebreak order: descending price, then descending amount, then
the venue order. -/
def bidBefore (vlt : Exchange → Exchange → Bool) (a b : Level) : Prop :=
  b.price < a.price ∨ (a.price = b.price ∧
    (b.amount < a.amount ∨ (a.amount = b.amount ∧ vlt a.exchange b.exchange = true)))

/-- The ask ordering the spec claims for OutTick, with the same amount
and venue tiebreaks: ascending price, then descending amount, then the
venue order. -/
def askBefore (vlt : Exchange → Exchange → Bool) (a b : Level) : Prop :=
  a.price < b.price ∨ (a.price = b.price ∧
    (b.amount < a.amount ∨ (a.amount = b.amount ∧ vlt a.exchange b.exchange = true)))

/-- The amended bid ordering, without a venue tiebreak: non-increasing
price, equal prices in non-increasing amount order. -/
def bidsOrdered (a b : Level) : Prop :=
  b.price < a.price ∨ (a.price = b.price ∧ b.amount ≤ a.amount)

/-- The amended ask ordering, without a venue tiebreak: non-decreasing
price, equal prices in non-increasing amount order. -/
def asksOrdered (a b : Level) : Prop :=
  a.price < b.price ∨ (a.price = b.price ∧ b.amount ≤ a.amount)

/-- Side-consistency of an Exchanges state: every stored bid level is
tagged Bid and every stored ask level is tagged Ask, as the adapters
guarantee for every tick they produce. -/
def WellFormedSides (s : Exchanges) : Prop :=
  (∀ x ∈ s.bitstamp.bids, x.side = Side.Bid) ∧
  (∀ x ∈ s.bitstamp.asks, x.side = Side.Ask) ∧
  (∀ x ∈ s.binance.bids, x.side = Side.Bid) ∧
  (∀ x ∈ s.binance.asks, x.side = Side.Ask) ∧
  (∀ kv ∈ s.kraken.bids, (Prod.snd kv).side = Side.Bid) ∧
  (∀ kv ∈ s.kraken.asks, (Prod.snd kv).side = Side.Ask) ∧
  (∀ kv ∈ s.coinbase.bids, (Prod.snd kv).side = Side.Bid) ∧
  (∀ kv ∈ s.coinbase.asks, (Prod.snd kv).side = Side.Ask)

/-- No stored level of the state has amount 0. -/
def ZeroFreeBooks (s : Exchanges) : Prop :=
  (∀ x ∈ s.bitstamp.bids, x.amount ≠ 0) ∧
  (∀ x ∈ s.bitstamp.asks, x.amount ≠ 0) ∧
  (∀ x ∈ s.binance.bids, x.amount ≠ 0) ∧
  (∀ x ∈ s.binance.asks, x.amount ≠ 0) ∧
  (∀ kv ∈ s.kraken.bids, (Prod.snd kv).amount ≠ 0) ∧
  (∀ kv ∈ s.kraken.asks, (Prod.snd kv).amount ≠ 0) ∧
  (∀ kv ∈ s.coinbase.bids, (Prod.snd kv).amount ≠ 0) ∧
  (∀ kv ∈ s.coinbase.asks, (Prod.snd kv).amount ≠ 0)

/-- A Kraken snapshot tick establishing ten bid levels at prices 1..10. -/
def kSnapTickC1 : InTick :=
  { exchange := Exchange.Kraken
    bids := [Level.new Side.Bid 1 1 Exchange.Kraken,
             Level.new Side.Bid 2 1 Exchange.Kraken,
             Level.new Side.Bid 3 1 Exchange.Kraken,
             Level.new Side.Bid 4 1 Exchange.Kraken,
             Level.new Side.Bid 5 1 Exchange.Kraken,
             Level.new Side.Bid 6 1 Exchange.Kraken,
             Level.new Side.Bid 7 1 Exchange.Kraken,
             Level.new Side.Bid 8 1 Exchange.Kraken,
             Level.new Side.Bid 9 1 Exchange.Kraken,
             Level.new Side.Bid 10 1 Exchange.Kraken]
    asks := [] }

/-- A Kraken delta tick inserting a new best bid at price 11. -/
def kDeltaTickC1 : InTick :=
  { exchange := Exchange.Kraken
    bids := [Level.new Side.Bid 11 1 Exchange.Kraken]
    asks := [] }

/-- The Kraken book state after the snapshot and the delta above. -/
def kStateC1 : Exchanges :=
  Exchanges.update (Exchanges.update Exchanges.new kSnapTickC1) kDeltaTickC1

/-- Two venues quoting the same bid price and amount and the same ask
price and amount, distinguishable only by venue. -/
def cexC2 : Exchanges :=
  { bitstamp := { bids := [Level.new Side.Bid 10 1 Exchange.Bitstamp]
                  asks := [Level.new Side.Ask 11 1 Exchange.Bitstamp] }
    binance := { bids := [Level.new Side.Bid 10 1 Exchange.Binance]
                 asks := [Level.new Side.Ask 11 1 Exchange.Binance] }
    kraken := OrderDepthsMap.new
    coinbase := OrderDepthsMap.new }

/-- A Bitstamp tick carrying a zero-amount bid level. -/
def zeroTickC3 : InTick :=
  { exchange := Exchange.Bitstamp
    bids := [Level.new Side.Bid 10 0 Exchange.Bitstamp]
    asks := [] }

/-- A crossed book: the only bid (price 12) is above the only ask
(price 11), held by different venues. -/
def crossedBook : Exchanges :=
  { bitstamp := { bids := [Level.new Side.Bid 12 1 Exchange.Bitstamp], asks := [] }
    binance := { bids := [], asks := [Level.new Side.Ask 11 1 Exchange.Binance] }
    kraken := OrderDepthsMap.new
    coinbase := OrderDepthsMap.new }

/-- A Kraken double-payload message whose two payloads both carry bids:
the first carries a level at price 10, the second a level at price 20. -/
def evC6 : KEvent :=
  KEvent.PublicMessage (KPublicMessage.DoublePayload 640
    (KPayload.Book (KBook.Update none (some [KLevel.mk 10 1 0 none]) none))
    (KPayload.Book (KBook.Update none (some [KLevel.mk 20 2 0 none]) none))
    "book-10" "ETH/XBT")

/-- A distinguishable published OutTick for the broadcast model. -/
def pubTickC9 : OutTick := { spread := 1, bids := [], asks := [] }

/-! ## Ordering machinery -/

theorem qcmp_eq_lt_iff (a b : Decimal) : qcmp a b = Ordering.lt ↔ a < b := by
  unfold qcmp
  rcases lt_trichotomy a b with h | h | h
  · simp [h]
  · subst h; simp
  · simp [asymm h, h]

theorem qcmp_eq_gt_iff (a b : Decimal) : qcmp a b = Ordering.gt ↔ b < a := by
  unfold qcmp
  rcases lt_trichotomy a b with h | h | h
  · simp [h, asymm h]
  · subst h; simp
  · simp [asymm h, h]

theorem qcmp_eq_eq_iff (a b : Decimal) : qcmp a b = Ordering.eq ↔ a = b := by
  unfold qcmp
  rcases lt_trichotomy a b with h | h | h
  · simp [h]; exact fun e => absurd e (ne_of_lt h)
  · subst h; simp
  · simp [asymm h, h]; exact fun e => absurd e (ne_of_gt h)

theorem levLE_bid_iff {a b : Level} (ha : a.side = Side.Bid) :
    levLE a b ↔ a.price < b.price ∨ (a.price = b.price ∧ a.amount ≤ b.amount) := by
  unfold levLE Level.cmp
  rcases lt_trichotomy a.price b.price with h | h | h
  · rw [(qcmp_eq_lt_iff _ _).2 h]
    simp [ha, h]
  · rw [(qcmp_eq_eq_iff _ _).2 h, ha]
    simp only [h, lt_self_iff_false, false_or, true_and]
    constructor
    · intro hne
      exact not_lt.1 (fun hlt => hne ((qcmp_eq_gt_iff _ _).2 hlt))
    · intro hle hgt
      exact absurd ((qcmp_eq_gt_iff _ _).1 hgt) (not_lt.2 hle)
  · rw [(qcmp_eq_gt_iff _ _).2 h]
    simp [ha, asymm h, ne_of_gt h]

theorem levLE_ask_iff {a b : Level} (ha : a.side = Side.Ask) :
    levLE a b ↔ a.price < b.price ∨ (a.price = b.price ∧ b.amount ≤ a.amount) := by
  unfold levLE Level.cmp
  rcases lt_trichotomy a.price b.price with h | h | h
  · rw [(qcmp_eq_lt_iff _ _).2 h]
    simp [ha, h]
  · rw [(qcmp_eq_eq_iff _ _).2 h, ha]
    simp only [h, lt_self_iff_false, false_or, true_and]
    constructor
    · intro hne
      refine not_lt.1 (fun hlt => hne ?_)
      have : qcmp a.amount b.amount = Ordering.lt := (qcmp_eq_lt_iff _ _).2 hlt
      rw [this]; rfl
    · intro hle hgt
      have : (qcmp a.amount b.amount).swap = Ordering.gt := hgt
      rcases h3 : qcmp a.amount b.amount with _ | _ | _ <;> rw [h3] at this
      · have := (qcmp_eq_lt_iff _ _).1 h3
        exact absurd this (not_lt.2 hle)
      · exact absurd this (by decide)
      · exact absurd this (by decide)
  · rw [(qcmp_eq_gt_iff _ _).2 h]
    simp [ha, asymm h, ne_of_gt h]

theorem levLE_total {sd : Side} {a b : Level}
    (ha : a.side = sd) (hb : b.side = sd) : levLE a b ∨ levLE b a := by
  cases sd
  · rw [levLE_bid_iff ha, levLE_bid_iff hb]
    rcases lt_trichotomy a.price b.price with h | h | h
    · exact Or.inl (Or.inl h)
    · rcases le_total a.amount b.amount with h2 | h2
      · exact Or.inl (Or.inr ⟨h, h2⟩)
      · exact Or.inr (Or.inr ⟨h.symm, h2⟩)
    · exact Or.inr (Or.inl h)
  · rw [levLE_ask_iff ha, levLE_ask_iff hb]
    rcases lt_trichotomy a.price b.price with h | h | h
    · exact Or.inl (Or.inl h)
    · rcases le_total a.amount b.amount with h2 | h2
      · exact Or.inr (Or.inr ⟨h.symm, h2⟩)
      · exact Or.inl (Or.inr ⟨h, h2⟩)
    · exact Or.inr (Or.inl h)

theorem levLE_trans {sd : Side} {a b c : Level}
    (ha : a.side = sd) (hb : b.side = sd) (hc : c.side = sd)
    (h1 : levLE a b) (h2 : levLE b c) : levLE a c := by
  cases sd
  · rw [levLE_bid_iff ha] at h1
    rw [levLE_bid_iff hb] at h2
    rw [levLE_bid_iff ha]
    rcases h1 with h1 | ⟨h1e, h1a⟩ <;> rcases h2 with h2 | ⟨h2e, h2a⟩
    · exact Or.inl (lt_trans h1 h2)
    · exact Or.inl (h2e ▸ h1)
    · exact Or.inl (h1e ▸ h2)
    · exact Or.inr ⟨h1e.trans h2e, le_trans h1a h2a⟩
  · rw [levLE_ask_iff ha] at h1
    rw [levLE_ask_iff hb] at h2
    rw [levLE_ask_iff ha]
    rcases h1 with h1 | ⟨h1e, h1a⟩ <;> rcases h2 with h2 | ⟨h2e, h2a⟩
    · exact Or.inl (lt_trans h1 h2)
    · exact Or.inl (h2e ▸ h1)
    · exact Or.inl (h1e ▸ h2)
    · exact Or.inr ⟨h1e.trans h2e, le_trans h2a h1a⟩

theorem pairwise_orderedInsert_of_side {sd : Side} {a : Level} {l : List Level}
    (ha : a.side = sd) (hl : ∀ x ∈ l, x.side = sd)
    (hs : l.Pairwise levLE) : (List.orderedInsert levLE a l).Pairwise levLE := by
  induction l with
  | nil => simp [List.orderedInsert]
  | cons b t ih =>
    rw [List.orderedInsert]
    by_cases hab : levLE a b
    · rw [if_pos hab]
      refine List.pairwise_cons.2 ⟨?_, hs⟩
      intro x hx
      rcases List.mem_cons.1 hx with rfl | hx
      · exact hab
      · exact levLE_trans ha (hl b (List.mem_cons_self _ _)) (hl x (List.mem_cons_of_mem _ hx))
          hab ((List.pairwise_cons.1 hs).1 x hx)
    · rw [if_neg hab]
      have hba : levLE b a :=
        (levLE_total ha (hl b (List.mem_cons_self _ _))).resolve_left hab
      have hs' := List.pairwise_cons.1 hs
      refine List.pairwise_cons.2 ⟨?_, ih (fun x hx => hl x (List.mem_cons_of_mem _ hx)) hs'.2⟩
      intro x hx
      rcases (List.mem_orderedInsert levLE).1 hx with rfl | hx
      · exact hba
      · exact hs'.1 x hx

theorem pairwise_insertionSort_of_side {sd : Side} {l : List Level}
    (hl : ∀ x ∈ l, x.side = sd) : (List.insertionSort levLE l).Pairwise levLE := by
  induction l with
  | nil => simp
  | cons a t ih =>
    rw [List.insertionSort]
    exact pairwise_orderedInsert_of_side (hl a (List.mem_cons_self _ _))
      (fun x hx => hl x (List.mem_cons_of_mem _ ((List.mem_insertionSort levLE).1 hx)))
      (ih (fun x hx => hl x (List.mem_cons_of_mem _ hx)))

theorem mem_merge {x : Level} {a b : List Level} :
    x ∈ Merge.merge a b ↔ x ∈ a ∨ x ∈ b := by
  unfold Merge.merge
  rw [List.mem_insertionSort, List.mem_append]

theorem mem_merge_map {x : Level} {a : List Level} {m : LevelsMap} :
    x ∈ Merge.merge_map a m ↔ x ∈ a ∨ x ∈ m.values := by
  unfold Merge.merge_map
  exact mem_merge

theorem to_tick_bids (s : Exchanges) :
    (Exchanges.to_tick s).bids =
      (Merge.merge_map (Merge.merge_map (Merge.merge s.bitstamp.bids s.binance.bids)
        s.kraken.bids) s.coinbase.bids).reverse.take 10 := rfl

theorem to_tick_asks (s : Exchanges) :
    (Exchanges.to_tick s).asks =
      (Merge.merge_map (Merge.merge_map (Merge.merge s.bitstamp.asks s.binance.asks)
        s.kraken.asks) s.coinbase.asks).take 10 := rfl

theorem to_tick_spread (s : Exchanges) :
    (Exchanges.to_tick s).spread =
      match (Exchanges.to_tick s).bids.head?, (Exchanges.to_tick s).asks.head? with
      | some b, some a => a.price - b.price
      | _, _ => 0 := rfl

theorem mem_values {x : Level} {m : LevelsMap} :
    x ∈ m.values ↔ ∃ kv ∈ m, Prod.snd kv = x := by
  unfold LevelsMap.values
  rw [List.mem_map]

theorem bids_merged_side {s : Exchanges} (h : WellFormedSides s) :
    ∀ x ∈ (Merge.merge_map (Merge.merge s.bitstamp.bids s.binance.bids)
        s.kraken.bids ++ s.coinbase.bids.values), x.side = Side.Bid := by
  obtain ⟨h1, -, h3, -, h5, -, h7, -⟩ := h
  intro x hx
  rcases List.mem_append.1 hx with hx | hx
  · rcases mem_merge_map.1 hx with hx | hx
    · rcases mem_merge.1 hx with hx | hx
      · exact h1 x hx
      · exact h3 x hx
    · obtain ⟨kv, hkv, rfl⟩ := mem_values.1 hx
      exact h5 kv hkv
  · obtain ⟨kv, hkv, rfl⟩ := mem_values.1 hx
    exact h7 kv hkv

theorem asks_merged_side {s : Exchanges} (h : WellFormedSides s) :
    ∀ x ∈ (Merge.merge_map (Merge.merge s.bitstamp.asks s.binance.asks)
        s.kraken.asks ++ s.coinbase.asks.values), x.side = Side.Ask := by
  obtain ⟨-, h2, -, h4, -, h6, -, h8⟩ := h
  intro x hx
  rcases List.mem_append.1 hx with hx | hx
  · rcases mem_merge_map.1 hx with hx | hx
    · rcases mem_merge.1 hx with hx | hx
      · exact h2 x hx
      · exact h4 x hx
    · obtain ⟨kv, hkv, rfl⟩ := mem_values.1 hx
      exact h6 kv hkv
  · obtain ⟨kv, hkv, rfl⟩ := mem_values.1 hx
    exact h8 kv hkv

/-- C2 (amended): for every side-consistent Exchanges state, the
OutTick's bids are non-increasing by price with equal-price ties in
non-increasing amount order, and the asks are non-decreasing by price
with equal-price ties in non-increasing amount order; no venue-based
tiebreak is guaranteed. -/
theorem C2_out_tick_ordered (s : Exchanges) (h : WellFormedSides s) :
    (Exchanges.to_tick s).bids.Pairwise bidsOrdered ∧
    (Exchanges.to_tick s).asks.Pairwise asksOrdered := by
  constructor
  · have hside := bids_merged_side h
    have hpair : (Merge.merge_map (Merge.merge_map
        (Merge.merge s.bitstamp.bids s.binance.bids) s.kraken.bids)
        s.coinbase.bids).Pairwise levLE :=
      pairwise_insertionSort_of_side hside
    have hrev : ((Merge.merge_map (Merge.merge_map
        (Merge.merge s.bitstamp.bids s.binance.bids) s.kraken.bids)
        s.coinbase.bids).reverse).Pairwise (fun a b => levLE b a) :=
      List.pairwise_reverse.2 hpair
    have htake := List.Pairwise.sublist (List.take_sublist 10 _) hrev
    rw [to_tick_bids]
    refine htake.imp_of_mem ?_
    intro a b hma hmb hR
    have hmem : ∀ y, y ∈ (Merge.merge_map (Merge.merge_map
        (Merge.merge s.bitstamp.bids s.binance.bids) s.kraken.bids)
        s.coinbase.bids).reverse.take 10 → y.side = Side.Bid := by
      intro y hy
      have hy2 := List.mem_reverse.1 ((List.take_sublist 10 _).subset hy)
      exact hside y ((List.mem_insertionSort levLE).1 hy2)
    have hb : b.side = Side.Bid := hmem b hmb
    rcases (levLE_bid_iff hb).1 hR with hlt | ⟨heq, hle⟩
    · exact Or.inl hlt
    · exact Or.inr ⟨heq.symm, hle⟩
  · have hside := asks_merged_side h
    have hpair : (Merge.merge_map (Merge.merge_map
        (Merge.merge s.bitstamp.asks s.binance.asks) s.kraken.asks)
        s.coinbase.asks).Pairwise levLE :=
      pairwise_insertionSort_of_side hside
    have htake := List.Pairwise.sublist (List.take_sublist 10 _) hpair
    rw [to_tick_asks]
    refine htake.imp_of_mem ?_
    intro a b hma hmb hR
    have hmem : ∀ y, y ∈ (Merge.merge_map (Merge.merge_map
        (Merge.merge s.bitstamp.asks s.binance.asks) s.kraken.asks)
        s.coinbase.asks).take 10 → y.side = Side.Ask := by
      intro y hy
      exact hside y ((List.mem_insertionSort levLE).1 ((List.take_sublist 10 _).subset hy))
    have ha : a.side = Side.Ask := hmem a hma
    exact (levLE_ask_iff ha).1 hR

/-- C2 (counterexample): in the OutTick of the concrete state cexC2, the
bids put the Binance level before the equal-price equal-amount Bitstamp
level while the asks put Bitstamp before Binance, so no venue tiebreak
order whatsoever (applied alike to both sides, as the claim requires)
sorts both sides: ordering is not total on venue identity. -/
theorem C2_counterexample :
    ¬ ∃ vlt : Exchange → Exchange → Bool,
      (∀ e f, vlt e f = true → vlt f e = false) ∧
      (Exchanges.to_tick cexC2).bids.Pairwise (bidBefore vlt) ∧
      (Exchanges.to_tick cexC2).asks.Pairwise (askBefore vlt) := by
  rintro ⟨vlt, hasym, hb, ha⟩
  have hbids : (Exchanges.to_tick cexC2).bids =
      [Level.new Side.Bid 10 1 Exchange.Binance,
       Level.new Side.Bid 10 1 Exchange.Bitstamp] := by decide
  have hasks : (Exchanges.to_tick cexC2).asks =
      [Level.new Side.Ask 11 1 Exchange.Bitstamp,
       Level.new Side.Ask 11 1 Exchange.Binance] := by decide
  rw [hbids] at hb
  rw [hasks] at ha
  have h1 := (List.pairwise_cons.1 hb).1 _ (List.mem_singleton_self _)
  have h2 := (List.pairwise_cons.1 ha).1 _ (List.mem_singleton_self _)
  have hv1 : vlt Exchange.Binance Exchange.Bitstamp = true := by
    rcases h1 with h | ⟨-, h | ⟨-, h⟩⟩
    · norm_num [Level.new] at h
    · norm_num [Level.new] at h
    · exact h
  have hv2 : vlt Exchange.Bitstamp Exchange.Binance = true := by
    rcases h2 with h | ⟨-, h | ⟨-, h⟩⟩
    · norm_num [Level.new] at h
    · norm_num [Level.new] at h
    · exact h
  exact absurd hv1 (by rw [hasym _ _ hv2]; simp)

/-- C2 (witness): the amended ordering theorem applied to the concrete
two-venue state of the counterexample, which is side-consistent. -/
theorem C2_out_tick_ordered_witness :
    (Exchanges.to_tick cexC2).bids.Pairwise bidsOrdered ∧
    (Exchanges.to_tick cexC2).asks.Pairwise asksOrdered :=
  C2_out_tick_ordered cexC2 (by
    refine ⟨?_, ?_, ?_, ?_, ?_, ?_, ?_, ?_⟩ <;> decide)

/-- C1 (code evaluated at the failing input): with the Kraken bid book
holding prices 1..10 and a delta inserting a new best bid at price 11,
Exchanges::update truncates the side to the 10 LOWEST prices, dropping
the incoming price 11 — the opposite of the claimed price-priority for
bids (the 10 highest kept); consequently the published best bid is 10,
not 11.  The ask side of the same truncation does keep the 10 lowest
prices, as claimed. -/
theorem C1_truncation_drops_best_bid :
    kStateC1.kraken.bids.map Prod.fst = [1, 2, 3, 4, 5, 6, 7, 8, 9, 10] ∧
    (11 : Decimal) ∉ kStateC1.kraken.bids.map Prod.fst ∧
    (Exchanges.to_tick kStateC1).bids.head? =
      some (Level.new Side.Bid 10 1 Exchange.Kraken) := by
  refine ⟨by decide, by decide, by decide⟩

/-- C4: the spread of every OutTick is the first ask price minus the
first bid price when both merged sides are non-empty and 0 when either
side is empty, computed exactly on decimals; on the concrete crossed
book (best ask 11 below best bid 12) it is the negative value -1,
not clamped. -/
theorem C4_spread :
    (∀ s : Exchanges, ∀ b a : Level,
      (Exchanges.to_tick s).bids.head? = some b →
      (Exchanges.to_tick s).asks.head? = some a →
      (Exchanges.to_tick s).spread = a.price - b.price) ∧
    (∀ s : Exchanges, (Exchanges.to_tick s).bids = [] →
      (Exchanges.to_tick s).spread = 0) ∧
    (∀ s : Exchanges, (Exchanges.to_tick s).asks = [] →
      (Exchanges.to_tick s).spread = 0) ∧
    ((Exchanges.to_tick crossedBook).spread = -1 ∧
      (Exchanges.to_tick crossedBook).spread < 0) := by
  have hcross : (Exchanges.to_tick crossedBook).spread = -1 := by
    have hb : (Exchanges.to_tick crossedBook).bids.head? =
        some (Level.new Side.Bid 12 1 Exchange.Bitstamp) := by decide
    have ha : (Exchanges.to_tick crossedBook).asks.head? =
        some (Level.new Side.Ask 11 1 Exchange.Binance) := by decide
    rw [to_tick_spread crossedBook, hb, ha]
    norm_num [Level.new]
  refine ⟨?_, ?_, ?_, hcross, by rw [hcross]; norm_num⟩
  · intro s b a hb ha
    rw [to_tick_spread s, hb, ha]
  · intro s hb
    rw [to_tick_spread s, hb]
    rcases (Exchanges.to_tick s).asks.head? with _ | a <;> rfl
  · intro s ha
    rw [to_tick_spread s, ha]
    rcases (Exchanges.to_tick s).bids.head? with _ | a <;> rfl

/-- C4 (witness): the spread equation applied at the concrete crossed
book, whose merged sides are both non-empty. -/
theorem C4_spread_witness :
    (Exchanges.to_tick crossedBook).spread =
      (Level.new Side.Ask 11 1 Exchange.Binance).price -
      (Level.new Side.Bid 12 1 Exchange.Bitstamp).price :=
  C4_spread.1 crossedBook _ _ (by decide) (by decide)

/-- C10: Exchanges::update writes only the book of the tick's venue;
each of the other venues' book fields is returned unchanged. -/
theorem C10_update_frame (s : Exchanges) (t : InTick) :
    (t.exchange ≠ Exchange.Bitstamp → (Exchanges.update s t).bitstamp = s.bitstamp) ∧
    (t.exchange ≠ Exchange.Binance → (Exchanges.update s t).binance = s.binance) ∧
    (t.exchange ≠ Exchange.Kraken → (Exchanges.update s t).kraken = s.kraken) ∧
    (t.exchange ≠ Exchange.Coinbase → (Exchanges.update s t).coinbase = s.coinbase) := by
  obtain ⟨e, bids, asks⟩ := t
  cases e <;> refine ⟨?_, ?_, ?_, ?_⟩ <;> intro h <;>
    first
      | exact absurd rfl h
      | rfl

/-- C10 (witness): updating with a Kraken tick leaves the Bitstamp,
Binance and Coinbase books of the empty state unchanged. -/
theorem C10_update_frame_witness :
    (Exchanges.update Exchanges.new kSnapTickC1).bitstamp = Exchanges.new.bitstamp ∧
    (Exchanges.update Exchanges.new kSnapTickC1).binance = Exchanges.new.binance ∧
    (Exchanges.update Exchanges.new kSnapTickC1).coinbase = Exchanges.new.coinbase :=
  ⟨(C10_update_frame Exchanges.new kSnapTickC1).1 (by decide),
   (C10_update_frame Exchanges.new kSnapTickC1).2.1 (by decide),
   (C10_update_frame Exchanges.new kSnapTickC1).2.2.2 (by decide)⟩

/-- C7: updates from two different venues commute: applying the two
ticks in either order yields the same Exchanges state, and therefore
the same OutTick. -/
theorem C7_update_commutes (s : Exchanges) (t1 t2 : InTick)
    (h : t1.exchange ≠ t2.exchange) :
    Exchanges.update (Exchanges.update s t1) t2 =
      Exchanges.update (Exchanges.update s t2) t1 ∧
    Exchanges.to_tick (Exchanges.update (Exchanges.update s t1) t2) =
      Exchanges.to_tick (Exchanges.update (Exchanges.update s t2) t1) := by
  have hst : Exchanges.update (Exchanges.update s t1) t2 =
      Exchanges.update (Exchanges.update s t2) t1 := by
    obtain ⟨e1, b1, a1⟩ := t1
    obtain ⟨e2, b2, a2⟩ := t2
    simp only [ne_eq] at h
    cases e1 <;> cases e2 <;>
      first
        | exact absurd rfl h
        | rfl
  exact ⟨hst, by rw [hst]⟩

/-- C7 (witness): a Kraken tick and a Bitstamp tick commute on the
empty state. -/
theorem C7_update_commutes_witness :
    Exchanges.update (Exchanges.update Exchanges.new kSnapTickC1) zeroTickC3 =
      Exchanges.update (Exchanges.update Exchanges.new zeroTickC3) kSnapTickC1 :=
  (C7_update_commutes Exchanges.new kSnapTickC1 zeroTickC3 (by decide)).1

theorem toLevels_length_le {α : Type} (f : α → Side → Level) (xs : List α)
    (sd : Side) (depth : ℕ) : (toLevels f xs sd depth).length ≤ depth := by
  unfold toLevels
  rw [List.length_map]
  by_cases h : depth < xs.length
  · rw [if_pos h, List.length_take]
    exact min_le_left _ _
  · rw [if_neg h]
    exact le_of_not_lt h

/-- C5: every InTick produced by a venue conversion carries at most 10
levels per side, and every OutTick produced by Exchanges::to_tick
carries at most 10 levels per side. -/
theorem C5_depth_cap :
    (∀ e : KEvent, ∀ t : InTick, KEvent.maybe_to_tick e = some t →
      t.bids.length ≤ 10 ∧ t.asks.length ≤ 10) ∧
    (∀ e : CEvent, ∀ t : InTick, CEvent.maybe_to_tick e = some t →
      t.bids.length ≤ 10 ∧ t.asks.length ≤ 10) ∧
    (∀ e : BnEvent, ∀ t : InTick, BnEvent.maybe_to_tick e = some t →
      t.bids.length ≤ 10 ∧ t.asks.length ≤ 10) ∧
    (∀ e : BsEvent, ∀ t : InTick, BsEvent.maybe_to_tick e = some t →
      t.bids.length ≤ 10 ∧ t.asks.length ≤ 10) ∧
    (∀ s : Exchanges,
      (Exchanges.to_tick s).bids.length ≤ 10 ∧ (Exchanges.to_tick s).asks.length ≤ 10) := by
  refine ⟨?_, ?_, ?_, ?_, ?_⟩
  · intro e t h
    rcases e with g | pm
    · exact Option.noConfusion h
    · rcases pm with ⟨cid, ⟨bk⟩, cn, pr⟩ | ⟨cid, ⟨bk1⟩, ⟨bk2⟩, cn, pr⟩
      · rcases bk with ⟨asks, bids⟩ | ⟨asks, bids, cs⟩
        · obtain rfl := Option.some_injective _ h
          exact ⟨toLevels_length_le _ _ _ _, toLevels_length_le _ _ _ _⟩
        · obtain rfl := Option.some_injective _ h
          constructor
          · rcases bids with _ | bs
            · exact Nat.zero_le 10
            · exact toLevels_length_le _ _ _ _
          · rcases asks with _ | xs
            · exact Nat.zero_le 10
            · exact toLevels_length_le _ _ _ _
      · rcases bk1 with ⟨a1s, b1s⟩ | ⟨a1, b1, c1⟩ <;>
          rcases bk2 with ⟨a2s, b2s⟩ | ⟨a2, b2, c2⟩
        · exact Option.noConfusion h
        · exact Option.noConfusion h
        · exact Option.noConfusion h
        · obtain rfl := Option.some_injective _ h
          constructor
          · rcases b2 with _ | bs
            · rcases b1 with _ | bs
              · exact Nat.zero_le 10
              · exact toLevels_length_le _ _ _ _
            · exact toLevels_length_le _ _ _ _
          · rcases a2 with _ | xs
            · rcases a1 with _ | xs
              · exact Nat.zero_le 10
              · exact toLevels_length_le _ _ _ _
            · exact toLevels_length_le _ _ _ _
  · intro e t h
    rcases e with m | ⟨p, c⟩ | ⟨p, c⟩ | c | ⟨sq, lt, pid, tm⟩ | ⟨ps, cs⟩
      | ⟨sq, pid, pr, bb, ba, sd, tm, tid, ls⟩ | ⟨pid, bids, asks⟩ | ⟨pid, tm, chs⟩
    · exact Option.noConfusion h
    · exact Option.noConfusion h
    · exact Option.noConfusion h
    · exact Option.noConfusion h
    · exact Option.noConfusion h
    · exact Option.noConfusion h
    · exact Option.noConfusion h
    · obtain rfl := Option.some_injective _ h
      exact ⟨toLevels_length_le _ _ _ _, toLevels_length_le _ _ _ _⟩
    · obtain rfl := Option.some_injective _ h
      exact ⟨toLevels_length_le _ _ _ _, toLevels_length_le _ _ _ _⟩
  · intro e t h
    obtain rfl := Option.some_injective _ h
    exact ⟨toLevels_length_le _ _ _ _, toLevels_length_le _ _ _ _⟩
  · intro e t h
    rcases e with ⟨d, c⟩ | c | c | c | c | ⟨cd, m, c⟩
    · obtain rfl := Option.some_injective _ h
      exact ⟨toLevels_length_le _ _ _ _, toLevels_length_le _ _ _ _⟩
    · exact Option.noConfusion h
    · exact Option.noConfusion h
    · exact Option.noConfusion h
    · exact Option.noConfusion h
    · exact Option.noConfusion h
  · intro s
    rw [to_tick_bids, to_tick_asks]
    constructor
    · rw [List.length_take]
      exact min_le_left _ _
    · rw [List.length_take]
      exact min_le_left _ _

/-- C5 (witness): the depth cap applied to a concrete Kraken snapshot
event and to the concrete state kStateC1. -/
theorem C5_depth_cap_witness :
    ((KEvent.PublicMessage (KPublicMessage.SinglePayload 640
        (KPayload.Book (KBook.Snapshot [] [KLevel.mk 10 1 0 none]))
        "book-10" "ETH/XBT")).maybe_to_tick =
      some { exchange := Exchange.Kraken
             bids := [Level.new Side.Bid 10 1 Exchange.Kraken], asks := [] }) ∧
    [Level.new Side.Bid 10 1 Exchange.Kraken].length ≤ 10 ∧
    (Exchanges.to_tick kStateC1).bids.length ≤ 10 :=
  ⟨by decide,
   (C5_depth_cap.1 (KEvent.PublicMessage (KPublicMessage.SinglePayload 640
      (KPayload.Book (KBook.Snapshot [] [KLevel.mk 10 1 0 none])) "book-10" "ETH/XBT"))
      { exchange := Exchange.Kraken
        bids := [Level.new Side.Bid 10 1 Exchange.Kraken], asks := [] }
      (by decide)).1,
   (C5_depth_cap.2.2.2.2 kStateC1).1⟩

/-- C8: for the Kraken, Coinbase and Binance adapters, parse returns
Ok(None) on ping, pong, binary and close frames and on decoded
heartbeat and subscription-acknowledgement messages (for Kraken, every
decoded general message produces no tick, which covers its heartbeats
and subscription statuses), and parse returns Err(BadData) exactly on
a text payload that fails to decode. -/
theorem C8_parse_dispatch :
    (∀ dec : String → Option KEvent,
      (∀ p, Kraken.parse dec (Message.Ping p) = Except.ok none) ∧
      (∀ p, Kraken.parse dec (Message.Pong p) = Except.ok none) ∧
      (∀ p, Kraken.parse dec (Message.Binary p) = Except.ok none) ∧
      (∀ p, Kraken.parse dec (Message.Close p) = Except.ok none) ∧
      (∀ x, dec x = none → Kraken.parse dec (Message.Text x) = Except.error Err.BadData) ∧
      (∀ m e, Kraken.parse dec m = Except.error e →
        e = Err.BadData ∧ ∃ x, m = Message.Text x ∧ dec x = none) ∧
      (∀ x g, dec x = some (KEvent.GeneralMessage g) →
        Kraken.parse dec (Message.Text x) = Except.ok none)) ∧
    (∀ dec : String → Option CEvent,
      (∀ p, Coinbase.parse dec (Message.Ping p) = Except.ok none) ∧
      (∀ p, Coinbase.parse dec (Message.Pong p) = Except.ok none) ∧
      (∀ p, Coinbase.parse dec (Message.Binary p) = Except.ok none) ∧
      (∀ p, Coinbase.parse dec (Message.Close p) = Except.ok none) ∧
      (∀ x, dec x = none → Coinbase.parse dec (Message.Text x) = Except.error Err.BadData) ∧
      (∀ m e, Coinbase.parse dec m = Except.error e →
        e = Err.BadData ∧ ∃ x, m = Message.Text x ∧ dec x = none) ∧
      (∀ x sq lt pid tm, dec x = some (CEvent.Heartbeat sq lt pid tm) →
        Coinbase.parse dec (Message.Text x) = Except.ok none) ∧
      (∀ x cs, dec x = some (CEvent.Subscriptions cs) →
        Coinbase.parse dec (Message.Text x) = Except.ok none)) ∧
    (∀ dec : String → Option BnEvent,
      (∀ p, Binance.parse dec (Message.Ping p) = Except.ok none) ∧
      (∀ p, Binance.parse dec (Message.Pong p) = Except.ok none) ∧
      (∀ p, Binance.parse dec (Message.Binary p) = Except.ok none) ∧
      (∀ p, Binance.parse dec (Message.Close p) = Except.ok none) ∧
      (∀ x, dec x = none → Binance.parse dec (Message.Text x) = Except.error Err.BadData) ∧
      (∀ m e, Binance.parse dec m = Except.error e →
        e = Err.BadData ∧ ∃ x, m = Message.Text x ∧ dec x = none)) := by
  refine ⟨fun dec => ⟨fun p => rfl, fun p => rfl, fun p => rfl, fun p => rfl, ?_, ?_, ?_⟩,
    fun dec => ⟨fun p => rfl, fun p => rfl, fun p => rfl, fun p => rfl, ?_, ?_, ?_, ?_⟩,
    fun dec => ⟨fun p => rfl, fun p => rfl, fun p => rfl, fun p => rfl, ?_, ?_⟩⟩
  · intro x hx
    simp only [Kraken.parse, hx]
  · intro m e hm
    rcases m with x | p | p | p | p | p
    · rcases hdec : dec x with _ | ev
      · simp only [Kraken.parse, hdec] at hm
        exact ⟨(Except.error.inj hm).symm, x, rfl, hdec⟩
      · simp only [Kraken.parse, hdec] at hm
        exact Except.noConfusion hm
    · exact Except.noConfusion hm
    · exact Except.noConfusion hm
    · exact Except.noConfusion hm
    · exact Except.noConfusion hm
    · exact Except.noConfusion hm
  · intro x g hx
    simp only [Kraken.parse, hx]
    rfl
  · intro x hx
    simp only [Coinbase.parse, hx]
  · intro m e hm
    rcases m with x | p | p | p | p | p
    · rcases hdec : dec x with _ | ev
      · simp only [Coinbase.parse, hdec] at hm
        exact ⟨(Except.error.inj hm).symm, x, rfl, hdec⟩
      · simp only [Coinbase.parse, hdec] at hm
        exact Except.noConfusion hm
    · exact Except.noConfusion hm
    · exact Except.noConfusion hm
    · exact Except.noConfusion hm
    · exact Except.noConfusion hm
    · exact Except.noConfusion hm
  · intro x sq lt pid tm hx
    simp only [Coinbase.parse, hx]
    rfl
  · intro x cs hx
    simp only [Coinbase.parse, hx]
    rfl
  · intro x hx
    simp only [Binance.parse, hx]
  · intro m e hm
    rcases m with x | p | p | p | p | p
    · rcases hdec : dec x with _ | ev
      · simp only [Binance.parse, hdec] at hm
        exact ⟨(Except.error.inj hm).symm, x, rfl, hdec⟩
      · simp only [Binance.parse, hdec] at hm
        exact Except.noConfusion hm
    · exact Except.noConfusion hm
    · exact Except.noConfusion hm
    · exact Except.noConfusion hm
    · exact Except.noConfusion hm
    · exact Except.noConfusion hm

/-- C8 (witness): the dispatch facts applied to a decoder that always
fails and to concrete frames. -/
theorem C8_parse_dispatch_witness :
    Kraken.parse (fun _ => none) (Message.Text "x") = Except.error Err.BadData ∧
    Coinbase.parse (fun _ => none) (Message.Ping []) = Except.ok none ∧
    Binance.parse (fun _ => none) (Message.Close none) = Except.ok none :=
  ⟨(C8_parse_dispatch.1 (fun _ => none)).2.2.2.2.1 "x" rfl,
   (C8_parse_dispatch.2.1 (fun _ => none)).1 [],
   (C8_parse_dispatch.2.2 (fun _ => none)).2.2.2.1 none⟩

theorem mem_extend_and_keep_amount_ne {kv : Decimal × Level} {m o : LevelsMap} {i : ℕ}
    (h : kv ∈ LevelsMap.extend_and_keep m o i) : kv.2.amount ≠ 0 := by
  unfold LevelsMap.extend_and_keep at h
  dsimp only at h
  split at h
  · have h2 := (List.mem_filter.1 h).1
    have h3 := (List.mem_filter.1 h2).2
    simpa using h3
  · have h3 := (List.mem_filter.1 h).2
    simpa using h3

theorem zeroFree_new : ZeroFreeBooks Exchanges.new := by
  refine ⟨?_, ?_, ?_, ?_, ?_, ?_, ?_, ?_⟩ <;>
    exact fun x hx => absurd hx (List.not_mem_nil x)

theorem zeroFree_update {s : Exchanges} {t : InTick}
    (hs : ZeroFreeBooks s)
    (ht : t.exchange = Exchange.Bitstamp ∨ t.exchange = Exchange.Binance →
      (∀ l ∈ t.bids, l.amount ≠ 0) ∧ (∀ l ∈ t.asks, l.amount ≠ 0)) :
    ZeroFreeBooks (Exchanges.update s t) := by
  obtain ⟨e, bids, asks⟩ := t
  obtain ⟨h1, h2, h3, h4, h5, h6, h7, h8⟩ := hs
  cases e
  · obtain ⟨hb, ha⟩ := ht (Or.inl rfl)
    exact ⟨hb, ha, h3, h4, h5, h6, h7, h8⟩
  · obtain ⟨hb, ha⟩ := ht (Or.inr rfl)
    exact ⟨h1, h2, hb, ha, h5, h6, h7, h8⟩
  · exact ⟨h1, h2, h3, h4, fun kv hkv => mem_extend_and_keep_amount_ne hkv,
      fun kv hkv => mem_extend_and_keep_amount_ne hkv, h7, h8⟩
  · exact ⟨h1, h2, h3, h4, h5, h6, fun kv hkv => mem_extend_and_keep_amount_ne hkv,
      fun kv hkv => mem_extend_and_keep_amount_ne hkv⟩

theorem zeroFree_foldl (ticks : List InTick) :
    ∀ s : Exchanges, ZeroFreeBooks s →
    (∀ t ∈ ticks, t.exchange = Exchange.Bitstamp ∨ t.exchange = Exchange.Binance →
      (∀ l ∈ t.bids, l.amount ≠ 0) ∧ (∀ l ∈ t.asks, l.amount ≠ 0)) →
    ZeroFreeBooks (ticks.foldl Exchanges.update s) := by
  induction ticks with
  | nil => exact fun s hs _ => hs
  | cons t ts ih =>
    intro s hs hts
    exact ih _ (zeroFree_update hs (hts t (List.mem_cons_self _ _)))
      (fun u hu => hts u (List.mem_cons_of_mem _ hu))

theorem mem_to_tick_bids {x : Level} {s : Exchanges}
    (h : x ∈ (Exchanges.to_tick s).bids) :
    x ∈ s.bitstamp.bids ∨ x ∈ s.binance.bids ∨
      x ∈ s.kraken.bids.values ∨ x ∈ s.coinbase.bids.values := by
  rw [to_tick_bids] at h
  have h1 := List.mem_reverse.1 ((List.take_sublist 10 _).subset h)
  rcases mem_merge_map.1 h1 with h2 | h2
  · rcases mem_merge_map.1 h2 with h3 | h3
    · rcases mem_merge.1 h3 with h4 | h4
      · exact Or.inl h4
      · exact Or.inr (Or.inl h4)
    · exact Or.inr (Or.inr (Or.inl h3))
  · exact Or.inr (Or.inr (Or.inr h2))

theorem mem_to_tick_asks {x : Level} {s : Exchanges}
    (h : x ∈ (Exchanges.to_tick s).asks) :
    x ∈ s.bitstamp.asks ∨ x ∈ s.binance.asks ∨
      x ∈ s.kraken.asks.values ∨ x ∈ s.coinbase.asks.values := by
  rw [to_tick_asks] at h
  have h1 := (List.take_sublist 10 _).subset h
  rcases mem_merge_map.1 h1 with h2 | h2
  · rcases mem_merge_map.1 h2 with h3 | h3
    · rcases mem_merge.1 h3 with h4 | h4
      · exact Or.inl h4
      · exact Or.inr (Or.inl h4)
    · exact Or.inr (Or.inr (Or.inl h3))
  · exact Or.inr (Or.inr (Or.inr h2))

/-- C3 (counterexample): applying the single Bitstamp InTick carrying a
zero-amount bid to the empty state yields an OutTick that contains the
zero-amount level: snapshot venues do not prune deletion markers. -/
theorem C3_counterexample :
    Level.new Side.Bid 10 0 Exchange.Bitstamp ∈
      (Exchanges.to_tick (Exchanges.update Exchanges.new zeroTickC3)).bids ∧
    (Level.new Side.Bid 10 0 Exchange.Bitstamp).amount = 0 :=
  ⟨by decide, rfl⟩

/-- C3 (amended): after any sequence of updates in which every
Bitstamp and Binance InTick carries no zero-amount level, no level of
the resulting OutTick has amount 0; zero-amount deltas for the Kraken
and Coinbase books are pruned unconditionally by extend_and_keep. -/
theorem C3_zero_pruning (ticks : List InTick)
    (h : ∀ t ∈ ticks, t.exchange = Exchange.Bitstamp ∨ t.exchange = Exchange.Binance →
      (∀ l ∈ t.bids, l.amount ≠ 0) ∧ (∀ l ∈ t.asks, l.amount ≠ 0)) :
    (∀ l ∈ (Exchanges.to_tick (Exchanges.applyAll ticks)).bids, l.amount ≠ 0) ∧
    (∀ l ∈ (Exchanges.to_tick (Exchanges.applyAll ticks)).asks, l.amount ≠ 0) := by
  obtain ⟨h1, h2, h3, h4, h5, h6, h7, h8⟩ := zeroFree_foldl ticks Exchanges.new zeroFree_new h
  constructor
  · intro l hl
    rcases mem_to_tick_bids hl with hm | hm | hm | hm
    · exact h1 l hm
    · exact h3 l hm
    · obtain ⟨kv, hkv, rfl⟩ := mem_values.1 hm
      exact h5 kv hkv
    · obtain ⟨kv, hkv, rfl⟩ := mem_values.1 hm
      exact h7 kv hkv
  · intro l hl
    rcases mem_to_tick_asks hl with hm | hm | hm | hm
    · exact h2 l hm
    · exact h4 l hm
    · obtain ⟨kv, hkv, rfl⟩ := mem_values.1 hm
      exact h6 kv hkv
    · obtain ⟨kv, hkv, rfl⟩ := mem_values.1 hm
      exact h8 kv hkv

/-- C3 (witness): the pruning theorem applied to the concrete sequence
holding one Kraken snapshot, for which the snapshot-venue hypothesis is
vacuous. -/
theorem C3_zero_pruning_witness :
    (∀ l ∈ (Exchanges.to_tick (Exchanges.applyAll [kSnapTickC1])).bids, l.amount ≠ 0) ∧
    (∀ l ∈ (Exchanges.to_tick (Exchanges.applyAll [kSnapTickC1])).asks, l.amount ≠ 0) :=
  C3_zero_pruning [kSnapTickC1] (by decide)

/-- C6 (counterexample): the double-payload Kraken message evC6 carries
a bid at price 10 in its first payload and a bid at price 20 in its
second; the conversion keeps only the second payload's bid, so the
first payload's level is not reflected in the resulting InTick. -/
theorem C6_counterexample :
    KEvent.maybe_to_tick evC6 =
      some { exchange := Exchange.Kraken
             bids := [Level.new Side.Bid 20 2 Exchange.Kraken]
             asks := [] } ∧
    Level.new Side.Bid 10 1 Exchange.Kraken ∉
      [Level.new Side.Bid 20 2 Exchange.Kraken] :=
  ⟨by decide, by decide⟩

/-- C6 (amended): a Kraken double-payload update message converts both
payloads in declaration order, with each payload's optional side list
assigning the tick's side, so the second payload's list replaces (not
extends) the first payload's list whenever both carry the same side;
when the two payloads carry disjoint sides — the shape the venue
sends — every level of both payloads is reflected. -/
theorem C6_double_payload (cid : ℕ) (a1 b1 : Option (List KLevel)) (c1 : Option String)
    (a2 b2 : Option (List KLevel)) (c2 : Option String) (cn pr : String) (t : InTick)
    (h : KEvent.maybe_to_tick (KEvent.PublicMessage (KPublicMessage.DoublePayload cid
        (KPayload.Book (KBook.Update a1 b1 c1)) (KPayload.Book (KBook.Update a2 b2 c2))
        cn pr)) = some t) :
    t.exchange = Exchange.Kraken ∧
    (∀ bs, b2 = some bs → t.bids = toLevels KLevel.to_level bs Side.Bid 10) ∧
    (b2 = none → ∀ bs, b1 = some bs → t.bids = toLevels KLevel.to_level bs Side.Bid 10) ∧
    (b2 = none → b1 = none → t.bids = []) ∧
    (∀ xs, a2 = some xs → t.asks = toLevels KLevel.to_level xs Side.Ask 10) ∧
    (a2 = none → ∀ xs, a1 = some xs → t.asks = toLevels KLevel.to_level xs Side.Ask 10) ∧
    (a2 = none → a1 = none → t.asks = []) := by
  obtain rfl := Option.some_injective _ h
  refine ⟨rfl, ?_, ?_, ?_, ?_, ?_, ?_⟩
  · rintro bs rfl
    rfl
  · rintro rfl bs rfl
    rfl
  · rintro rfl rfl
    rfl
  · rintro xs rfl
    rfl
  · rintro rfl xs rfl
    rfl
  · rintro rfl rfl
    rfl

/-- C6 (witness): the amended conversion applied at the concrete
double-payload message of the counterexample: the second payload's bid
list becomes the tick's bids. -/
theorem C6_double_payload_witness :
    ({ exchange := Exchange.Kraken
       bids := [Level.new Side.Bid 20 2 Exchange.Kraken]
       asks := [] } : InTick).bids =
      toLevels KLevel.to_level [KLevel.mk 20 2 0 none] Side.Bid 10 :=
  (C6_double_payload 640 none (some [KLevel.mk 10 1 0 none]) none
    none (some [KLevel.mk 20 2 0 none]) none "book-10" "ETH/XBT"
    { exchange := Exchange.Kraken
      bids := [Level.new Side.Bid 20 2 Exchange.Kraken]
      asks := [] } (by decide)).2.1 [KLevel.mk 20 2 0 none] rfl

theorem pollLoop_mem {pubs : List OutTick} (sched : List ℕ) :
    ∀ seen : ℕ, ∀ p ∈ pollLoop pubs seen sched,
      p.1 ∈ sched ∧ seen < p.1 ∧ p.2 = slotValue pubs p.1 := by
  induction sched with
  | nil =>
    intro seen p hp
    exact absurd hp (List.not_mem_nil p)
  | cons t ts ih =>
    intro seen p hp
    rw [pollLoop] at hp
    by_cases hst : seen < t
    · rw [if_pos hst] at hp
      rcases List.mem_cons.1 hp with rfl | hp
      · exact ⟨List.mem_cons_self _ _, hst, rfl⟩
      · obtain ⟨hmem, hlt, hval⟩ := ih t p hp
        exact ⟨List.mem_cons_of_mem _ hmem, lt_trans hst hlt, hval⟩
    · rw [if_neg hst] at hp
      obtain ⟨hmem, hlt, hval⟩ := ih seen p hp
      exact ⟨List.mem_cons_of_mem _ hmem, hlt, hval⟩

theorem pollLoop_chain {pubs : List OutTick} (sched : List ℕ) :
    ∀ seen : ℕ, (pollLoop pubs seen sched).Chain' (fun p q => p.1 < q.1) := by
  induction sched with
  | nil =>
    intro seen
    exact List.chain'_nil
  | cons t ts ih =>
    intro seen
    rw [pollLoop]
    by_cases hst : seen < t
    · rw [if_pos hst]
      refine List.chain'_cons'.2 ⟨?_, ih t⟩
      intro q hq
      exact (pollLoop_mem ts t q (List.mem_of_mem_head? hq)).2.1
    · rw [if_neg hst]
      exact ih seen

/-- C9 (counterexample): a subscriber connecting after one publish
receives the current value and then, because the cloned receiver
inherits the never-advanced seen marker of the stored receiver, one
further yield of the very same value from its first changed() await:
the second yielded value does not correspond to a strictly later
publish than the connect-time one. -/
theorem C9_counterexample :
    bookSummaryYields [pubTickC9] 1 [1] = [(1, pubTickC9), (1, pubTickC9)] ∧
    ¬ (∀ p ∈ (bookSummaryYields [pubTickC9] 1 [1]).tail, 1 < p.1) := by
  refine ⟨by decide, ?_⟩
  intro hall
  have h := hall (1, pubTickC9) (by decide)
  exact absurd h (by decide)

/-- C9 (amended): a book_summary subscription connecting after k
publishes first yields exactly the slot value at connect time (the
default OutTick when k = 0); every later yield reads a slot version at
or after the connect version together with the value the slot holds at
that version, and the versions of the later yields increase strictly,
so at most the first later yield (the single duplicate permitted by
the inherited seen marker) repeats the connect-time value and all
others correspond to strictly later publishes. -/
theorem C9_stream (pubs : List OutTick) (k : ℕ) (sched : List ℕ)
    (hk : ∀ t ∈ sched, k ≤ t) :
    (bookSummaryYields pubs k sched).head? = some (k, slotValue pubs k) ∧
    (∀ p ∈ (bookSummaryYields pubs k sched).tail,
      k ≤ p.1 ∧ p.2 = slotValue pubs p.1) ∧
    (bookSummaryYields pubs k sched).tail.Chain' (fun p q => p.1 < q.1) ∧
    slotValue pubs 0 = OutTick.new := by
  refine ⟨rfl, ?_, ?_, rfl⟩
  · intro p hp
    have hp' : p ∈ pollLoop pubs 0 sched := hp
    obtain ⟨hmem, -, hval⟩ := pollLoop_mem sched 0 p hp'
    exact ⟨hk p.1 hmem, hval⟩
  · exact pollLoop_chain sched 0

/-- C9 (witness): the stream facts applied to a subscriber connecting
before any publish, observing the single publish of pubTickC9. -/
theorem C9_stream_witness :
    (bookSummaryYields [pubTickC9] 0 [1]).head? = some (0, slotValue [pubTickC9] 0) ∧
    (bookSummaryYields [pubTickC9] 0 [1]).tail.Chain' (fun p q => p.1 < q.1) :=
  ⟨(C9_stream [pubTickC9] 0 [1] (by decide)).1,
   (C9_stream [pubTickC9] 0 [1] (by decide)).2.2.1⟩
